import Mathlib

/-!
Verification of the kiro2api gateway core against its specification.

The development shallowly embeds the Rust sources:
  * src/kiro/parser/crc.rs       (CRC32, ISO-HDLC variant)
  * src/kiro/parser/frame.rs     (parse_frame)
  * src/kiro/model/events/base.rs (Event dispatch)
  * src/kiro/machine_id.rs       (machine fingerprint)
  * src/pool/account.rs          (account lifecycle)
  * src/anthropic/types.rs       (thinking budget deserializer)
  * src/anthropic/middleware.rs  (constant-time key comparison)
  * src/token.rs                 (local token estimator)

Rust byte slices are modelled as List Nat whose members are < 256, strings
as their UTF-8 byte lists (ASCII literals coincide with their codepoints),
machine integers as Nat / Int with explicit reductions mod 2^w where
overflow is reachable, and timestamps as Int seconds since the epoch
(chrono's Duration::minutes(5) becomes 300 seconds).
-/

namespace Kiro2api

/-- UTF-8 bytes of an ASCII string literal: for ASCII the codepoints are the bytes. -/
def ascii (s : String) : List Nat := s.toList.map Char.toNat

/-- buffer[i]; parse_frame only indexes in bounds, the 0 default is never read there. -/
def getByte (l : List Nat) (i : Nat) : Nat := l.getD i 0

/-- u32::from_be_bytes on four consecutive buffer bytes. -/
def readU32BE (l : List Nat) (o : Nat) : Nat :=
  getByte l o * 16777216 + getByte l (o + 1) * 65536 + getByte l (o + 2) * 256 + getByte l (o + 3)

/-- The slice buffer[a..b]. -/
def listSlice (l : List Nat) (a b : Nat) : List Nat := (l.take b).drop a

/-! ## CRC32 (src/kiro/parser/crc.rs)

The source delegates to the crc crate's CRC_32_ISO_HDLC (reflected,
polynomial 0xEDB88320, init 0xFFFFFFFF, xorout 0xFFFFFFFF); this is the
standard bitwise form of that checksum. -/

def CRC_POLY : Nat := 0xEDB88320

/-- One shift step of the reflected CRC32: shift right, conditionally xor the polynomial. -/
def crcBit (c : Nat) : Nat := if c % 2 = 1 then (c / 2) ^^^ CRC_POLY else c / 2

/-- Fold one message byte into the running CRC register. -/
def crcByte (c b : Nat) : Nat := crcBit^[8] (c ^^^ b)

/-- crc32(data) per the ISO-HDLC parameters used by the source. -/
def crc32 (data : List Nat) : Nat := (data.foldl crcByte 0xFFFFFFFF) ^^^ 0xFFFFFFFF

/-! ## Frame parsing (src/kiro/parser/frame.rs) -/

def PRELUDE_SIZE : Nat := 12
def MIN_MESSAGE_SIZE : Nat := PRELUDE_SIZE + 4
def MAX_MESSAGE_SIZE : Nat := 16 * 1024 * 1024

/-- Typed header values of AWS Event Stream headers.
Modelled from the spec: src/kiro/parser/header.rs is not under src/; §4.3 of the
spec fixes the type tags 0 true, 1 false, 2 i8, 3 i16, 4 i32, 5 i64,
6 byte-array, 7 string, 8 timestamp (i64 ms), 9 UUID (16 bytes). -/
inductive HeaderValue where
  | boolTrue : HeaderValue
  | boolFalse : HeaderValue
  | int8 (v : Int) : HeaderValue
  | int16 (v : Int) : HeaderValue
  | int32 (v : Int) : HeaderValue
  | int64 (v : Int) : HeaderValue
  | byteArray (v : List Nat) : HeaderValue
  | string (v : List Nat) : HeaderValue
  | timestamp (v : Int) : HeaderValue
  | uuid (v : List Nat) : HeaderValue
deriving DecidableEq, Repr

/-- Ordered header map: insertion order, duplicate names overwrite (spec §4.3). -/
abbrev Headers := List (List Nat × HeaderValue)

/-- Errors of the event-stream parsing layer (src/kiro/parser/error.rs is not under
src/; the variants and their payloads are those parse_frame and Event construct). -/
inductive ParseError where
  | MessageTooSmall (length min : Nat) : ParseError
  | MessageTooLarge (length max : Nat) : ParseError
  | PreludeCrcMismatch (expected actual : Nat) : ParseError
  | MessageCrcMismatch (expected actual : Nat) : ParseError
  | HeaderParseFailed (msg : String) : ParseError
  | InvalidMessageType (msg : List Nat) : ParseError
  | PayloadDeserialize : ParseError
deriving DecidableEq, Repr

abbrev ParseResult (α : Type) := Except ParseError α

/-- Insert a header, overwriting the value in place when the name already exists. -/
def insertHeader (hs : Headers) (name : List Nat) (v : HeaderValue) : Headers :=
  if hs.any (fun e => e.1 == name) then
    hs.map (fun e => if e.1 == name then (e.1, v) else e)
  else hs ++ [(name, v)]

/-- Big-endian unsigned value of a byte list. -/
def readIntBE (bytes : List Nat) : Nat := bytes.foldl (fun acc b => acc * 256 + b) 0

/-- Two's-complement reading of a w-bit unsigned value. -/
def toSigned (w : Nat) (v : Nat) : Int :=
  if v < 2 ^ (w - 1) then (v : Int) else (v : Int) - 2 ^ w

/-- Modelled from the spec: decode one typed header value (tag already read) and
return it with the unconsumed remainder; none on truncation or unknown tag. -/
def parseHeaderValue (tag : Nat) (rest : List Nat) : Option (HeaderValue × List Nat) :=
  match tag with
  | 0 => some (.boolTrue, rest)
  | 1 => some (.boolFalse, rest)
  | 2 => if 1 ≤ rest.length then
           some (.int8 (toSigned 8 (readIntBE (rest.take 1))), rest.drop 1) else none
  | 3 => if 2 ≤ rest.length then
           some (.int16 (toSigned 16 (readIntBE (rest.take 2))), rest.drop 2) else none
  | 4 => if 4 ≤ rest.length then
           some (.int32 (toSigned 32 (readIntBE (rest.take 4))), rest.drop 4) else none
  | 5 => if 8 ≤ rest.length then
           some (.int64 (toSigned 64 (readIntBE (rest.take 8))), rest.drop 8) else none
  | 6 => if getByte rest 0 * 256 + getByte rest 1 + 2 ≤ rest.length then
           some (.byteArray ((rest.drop 2).take (getByte rest 0 * 256 + getByte rest 1)),
                 (rest.drop 2).drop (getByte rest 0 * 256 + getByte rest 1))
         else none
  | 7 => if getByte rest 0 * 256 + getByte rest 1 + 2 ≤ rest.length then
           some (.string ((rest.drop 2).take (getByte rest 0 * 256 + getByte rest 1)),
                 (rest.drop 2).drop (getByte rest 0 * 256 + getByte rest 1))
         else none
  | 8 => if 8 ≤ rest.length then
           some (.timestamp (toSigned 64 (readIntBE (rest.take 8))), rest.drop 8) else none
  | 9 => if 16 ≤ rest.length then some (.uuid (rest.take 16), rest.drop 16) else none
  | _ => none

theorem parseHeaderValue_length_le {tag : Nat} {rest r' : List Nat} {v : HeaderValue}
    (h : parseHeaderValue tag rest = some (v, r')) : r'.length ≤ rest.length := by
  unfold parseHeaderValue at h
  split at h
  all_goals repeat' split at h
  all_goals simp only [Option.some.injEq, Prod.mk.injEq, reduceCtorEq] at h
  all_goals rw [← h.2]
  all_goals simp only [List.length_drop]
  all_goals omega

/-- Modelled from the spec: decode the header region, one
name_len u8 | name | type_tag u8 | value entry at a time, overwriting duplicates,
failing on truncated entries or unknown tags (spec §4.3).  The fuel argument
only bounds the recursion; every entry consumes at least two bytes, so fuel
equal to the byte count (as supplied by parse_headers) is never exhausted. -/
def parseHeadersLoop : Nat → List Nat → Headers → ParseResult Headers
  | _, [], acc => .ok acc
  | 0, _ :: _, _ => .error (.HeaderParseFailed "truncated header entry")
  | fuel + 1, nameLen :: rest, acc =>
      if nameLen + 1 ≤ rest.length then
        match parseHeaderValue (getByte rest nameLen) ((rest.drop nameLen).drop 1) with
        | none => .error (.HeaderParseFailed "invalid header value")
        | some (v, rest3) => parseHeadersLoop fuel rest3 (insertHeader acc (rest.take nameLen) v)
      else .error (.HeaderParseFailed "truncated header name")

/-- Modelled from the spec: parse_headers over exactly header_length bytes
(parse_frame hands it the slice of that exact length). -/
def parse_headers (data : List Nat) (header_length : Nat) : ParseResult Headers :=
  if data.length = header_length then parseHeadersLoop data.length data []
  else .error (.HeaderParseFailed "header length mismatch")

/-- Decoded message frame: headers plus payload (src/kiro/parser/frame.rs). -/
structure Frame where
  headers : Headers
  payload : List Nat
deriving DecidableEq, Repr

/-- parse_frame from src/kiro/parser/frame.rs, translated branch for branch. -/
def parse_frame (buffer : List Nat) : ParseResult (Option (Frame × Nat)) :=
  if buffer.length < PRELUDE_SIZE then .ok none
  else
    let total_length := readU32BE buffer 0
    let header_length := readU32BE buffer 4
    let prelude_crc := readU32BE buffer 8
    if total_length < MIN_MESSAGE_SIZE then
      .error (.MessageTooSmall total_length MIN_MESSAGE_SIZE)
    else if MAX_MESSAGE_SIZE < total_length then
      .error (.MessageTooLarge total_length MAX_MESSAGE_SIZE)
    else if buffer.length < total_length then .ok none
    else
      let actual_prelude_crc := crc32 (buffer.take 8)
      if actual_prelude_crc ≠ prelude_crc then
        .error (.PreludeCrcMismatch prelude_crc actual_prelude_crc)
      else
        let message_crc := readU32BE buffer (total_length - 4)
        let actual_message_crc := crc32 (buffer.take (total_length - 4))
        if actual_message_crc ≠ message_crc then
          .error (.MessageCrcMismatch message_crc actual_message_crc)
        else
          let headers_start := PRELUDE_SIZE
          let headers_end := headers_start + header_length
          if total_length - 4 < headers_end then
            .error (.HeaderParseFailed "header length exceeds message bounds")
          else
            match parse_headers (listSlice buffer headers_start headers_end) header_length with
            | .error e => .error e
            | .ok headers =>
                let payload := listSlice buffer headers_end (total_length - 4)
                .ok (some ({ headers := headers, payload := payload }, total_length))

/-! ## Header accessors and the event model (src/kiro/model/events/base.rs)

The named header accessors live in the missing header.rs; modelled from the
spec: the caller reads the string-valued headers :message-type, :event-type,
:error-code and :exception-type. -/

/-- Look up a header by name (first match; insertion keeps names unique). -/
def headerLookup (hs : Headers) (name : List Nat) : Option HeaderValue :=
  (hs.find? (fun e => e.1 == name)).map (·.2)

/-- Modelled from the spec: read a header as a UTF-8 string value. -/
def headerString (hs : Headers) (name : List Nat) : Option (List Nat) :=
  match headerLookup hs name with
  | some (.string s) => some s
  | _ => none

def Frame.message_type (f : Frame) : Option (List Nat) := headerString f.headers (ascii ":message-type")

def Frame.event_type (f : Frame) : Option (List Nat) := headerString f.headers (ascii ":event-type")

def Frame.error_code (f : Frame) : Option (List Nat) := headerString f.headers (ascii ":error-code")

def Frame.exception_type (f : Frame) : Option (List Nat) := headerString f.headers (ascii ":exception-type")

/-- Payload of an assistantResponseEvent (src/kiro/model/events/assistant.rs). -/
structure AssistantResponseEvent where
  content : List Nat
deriving DecidableEq, Repr

/-- Payload of a toolUseEvent (src/kiro/model/events/tool_use.rs). -/
structure ToolUseEvent where
  name : List Nat
  tool_use_id : List Nat
  input : List Nat
  stop : Bool
deriving DecidableEq, Repr

/-- Payload of a contextUsageEvent (src/kiro/model/events/context_usage.rs);
the f64 percentage is modelled as a rational. -/
structure ContextUsageEvent where
  percentage : ℚ
deriving DecidableEq, Repr

/-- Event type tags (src/kiro/model/events/base.rs, enum EventType). -/
inductive EventType where
  | AssistantResponse : EventType
  | ToolUse : EventType
  | Metering : EventType
  | ContextUsage : EventType
  | Unknown : EventType
deriving DecidableEq, Repr

/-- EventType::from_str, match arm for match arm. -/
def EventType.from_str (s : List Nat) : EventType :=
  if s = ascii "assistantResponseEvent" then .AssistantResponse
  else if s = ascii "toolUseEvent" then .ToolUse
  else if s = ascii "meteringEvent" then .Metering
  else if s = ascii "contextUsageEvent" then .ContextUsage
  else .Unknown

/-- The unified event enum (src/kiro/model/events/base.rs, enum Event).  The
source declares the catch-all variant as Unknown {} — it has no fields, so it
records neither the event type nor the payload of the frame it came from. -/
inductive Event where
  | AssistantResponse (e : AssistantResponseEvent) : Event
  | ToolUse (e : ToolUseEvent) : Event
  | Metering : Event
  | ContextUsage (e : ContextUsageEvent) : Event
  | Unknown : Event
  | Error (error_code : List Nat) (error_message : List Nat) : Event
  | Exception (exception_type : List Nat) (message : List Nat) : Event
deriving DecidableEq, Repr

/-- Event::parse_error: error code header (default "UnknownError") plus the payload
read as a string (from_utf8_lossy is modelled as the raw byte list). -/
def Event.parse_error (frame : Frame) : ParseResult Event :=
  .ok (.Error ((frame.error_code).getD (ascii "UnknownError")) frame.payload)

/-- Event::parse_exception, same shape with the :exception-type header. -/
def Event.parse_exception (frame : Frame) : ParseResult Event :=
  .ok (.Exception ((frame.exception_type).getD (ascii "UnknownException")) frame.payload)

/-- Event::parse_event.  The three payload decoders parse JSON payloads through
serde (an external crate), so they are taken as parameters; the dispatch on the
:event-type header is translated arm for arm. -/
def Event.parse_event (pA : Frame → ParseResult AssistantResponseEvent)
    (pT : Frame → ParseResult ToolUseEvent) (pC : Frame → ParseResult ContextUsageEvent)
    (frame : Frame) : ParseResult Event :=
  let event_type_str := (frame.event_type).getD (ascii "unknown")
  match EventType.from_str event_type_str with
  | .AssistantResponse => (pA frame).map Event.AssistantResponse
  | .ToolUse => (pT frame).map Event.ToolUse
  | .Metering => .ok .Metering
  | .ContextUsage => (pC frame).map Event.ContextUsage
  | .Unknown => .ok .Unknown

/-- Event::from_frame: dispatch on :message-type, defaulting to "event". -/
def Event.from_frame (pA : Frame → ParseResult AssistantResponseEvent)
    (pT : Frame → ParseResult ToolUseEvent) (pC : Frame → ParseResult ContextUsageEvent)
    (frame : Frame) : ParseResult Event :=
  let message_type := (frame.message_type).getD (ascii "event")
  if message_type = ascii "event" then Event.parse_event pA pT pC frame
  else if message_type = ascii "error" then Event.parse_error frame
  else if message_type = ascii "exception" then Event.parse_exception frame
  else .error (.InvalidMessageType message_type)

/-! ## Local token estimator (src/token.rs)

The source computes with f64.  On the values reached here every comparison and
every truncation agrees with exact rational arithmetic: the unit sum and its
quarter are dyadic rationals represented exactly, the factors 1.5, 1.25 and 1.0
are dyadic so those products are exact, and for the factors 1.3 and 1.2 the
f64 rounding error of the product (below 4e-14 on the bounded ranges of those
branches) is far smaller than the distance (at least 1/40) from the exact
product to the nearest integer on either side, except when the exact product is
itself an integer, in which case the product rounds to exactly that integer.
The embedding therefore uses ℚ. -/

/-- is_non_western_char from src/token.rs, range for range. -/
def is_non_western_char (c : Nat) : Bool :=
  !(decide (c ≤ 0x7F)
    || (decide (0x80 ≤ c) && decide (c ≤ 0xFF))
    || (decide (0x100 ≤ c) && decide (c ≤ 0x24F))
    || (decide (0x1E00 ≤ c) && decide (c ≤ 0x1EFF))
    || (decide (0x2C60 ≤ c) && decide (c ≤ 0x2C7F))
    || (decide (0xA720 ≤ c) && decide (c ≤ 0xA7FF))
    || (decide (0xAB30 ≤ c) && decide (c ≤ 0xAB6F)))

/-- count_tokens from src/token.rs over a string given as its scalar values.
The final `as u64` cast truncates toward zero; the value is nonnegative, so it
is the floor. -/
def count_tokens (text : List Nat) : Nat :=
  let char_units : ℚ := (text.map (fun c => if is_non_western_char c then (4 : ℚ) else 1)).sum
  let tokens : ℚ := char_units / 4
  let acc_token : ℚ :=
    if tokens < 100 then tokens * 1.5
    else if tokens < 200 then tokens * 1.3
    else if tokens < 300 then tokens * 1.25
    else if tokens < 800 then tokens * 1.2
    else tokens * 1
  acc_token.floor.toNat

/-- The Western set exactly as the claim words it. -/
def westernSpec (c : Nat) : Bool :=
  decide (c ≤ 0x24F)
  || (decide (0x1E00 ≤ c) && decide (c ≤ 0x1EFF))
  || (decide (0x2C60 ≤ c) && decide (c ≤ 0x2C7F))
  || (decide (0xA720 ≤ c) && decide (c ≤ 0xA7FF))
  || (decide (0xAB30 ≤ c) && decide (c ≤ 0xAB6F))

/-- Claim-side unit count: 1 per Western character, 4 per other character. -/
def charUnitsSpec (text : List Nat) : Nat :=
  (text.map (fun c => if westernSpec c then 1 else 4)).sum

/-- Claim-side scale function on tokens = units / 4. -/
def scaleSpec (t : ℚ) : ℚ :=
  if t < 100 then t * 1.5
  else if t < 200 then t * 1.3
  else if t < 300 then t * 1.25
  else if t < 800 then t * 1.2
  else t

/-- Claim-side token count: integer truncation of scale(u / 4). -/
def specTokens (u : Nat) : Nat := (scaleSpec ((u : ℚ) / 4)).floor.toNat

/-! ## Account lifecycle (src/pool/account.rs)

Timestamps are Int seconds; chrono's now + Duration::minutes(5) becomes
now + 300. -/

/-- AccountStatus from src/pool/account.rs. -/
inductive AccountStatus where
  | Active : AccountStatus
  | Cooldown : AccountStatus
  | Invalid : AccountStatus
  | Disabled : AccountStatus
deriving DecidableEq, Repr

/-- Account from src/pool/account.rs (credentials omitted: no account operation
below reads them). -/
structure Account where
  id : List Nat
  name : List Nat
  status : AccountStatus
  request_count : Nat
  error_count : Nat
  last_used_at : Option Int
  cooldown_until : Option Int
  created_at : Int
deriving DecidableEq, Repr

/-- Account::is_available; Utc::now() is passed in as now. -/
def Account.is_available (a : Account) (now : Int) : Bool :=
  match a.status with
  | .Active => true
  | .Cooldown => ((a.cooldown_until).map (fun u => decide (now ≥ u))).getD true
  | _ => false

/-- Account::record_use. -/
def Account.record_use (a : Account) (now : Int) : Account :=
  let a' := { a with request_count := a.request_count + 1, last_used_at := some now }
  if a'.status = .Cooldown ∧ a'.is_available now = true then
    { a' with status := .Active, cooldown_until := none }
  else a'

/-- Account::record_error. -/
def Account.record_error (a : Account) (is_rate_limit : Bool) (now : Int) : Account :=
  let a' := { a with error_count := a.error_count + 1 }
  if is_rate_limit then
    { a' with status := .Cooldown, cooldown_until := some (now + 300) }
  else a'

/-- Account::mark_invalid. -/
def Account.mark_invalid (a : Account) : Account := { a with status := .Invalid }

/-- Account::enable. -/
def Account.enable (a : Account) : Account :=
  if a.status = .Disabled then { a with status := .Active } else a

/-- Account::disable. -/
def Account.disable (a : Account) : Account := { a with status := .Disabled }

/-! ## Machine fingerprint (src/kiro/machine_id.rs)

sha256_hex delegates to the sha2 crate; SHA-256 (FIPS 180-4) is implemented
here in full so the fingerprint functions stay executable.  Strings are their
UTF-8 byte lists. -/

def rotr32 (n x : Nat) : Nat := ((x >>> n) ||| (x <<< (32 - n))) % 2 ^ 32

def shaCh (x y z : Nat) : Nat := (x &&& y) ^^^ ((x ^^^ (2 ^ 32 - 1)) &&& z)

def shaMaj (x y z : Nat) : Nat := (x &&& y) ^^^ (x &&& z) ^^^ (y &&& z)

def shaBigSigma0 (x : Nat) : Nat := rotr32 2 x ^^^ rotr32 13 x ^^^ rotr32 22 x

def shaBigSigma1 (x : Nat) : Nat := rotr32 6 x ^^^ rotr32 11 x ^^^ rotr32 25 x

def shaSmallSigma0 (x : Nat) : Nat := rotr32 7 x ^^^ rotr32 18 x ^^^ (x >>> 3)

def shaSmallSigma1 (x : Nat) : Nat := rotr32 17 x ^^^ rotr32 19 x ^^^ (x >>> 10)

def shaK : List Nat :=
  [1116352408, 1899447441, 3049323471, 3921009573, 961987163,
   1508970993, 2453635748, 2870763221, 3624381080, 310598401,
   607225278, 1426881987, 1925078388, 2162078206, 2614888103,
   3248222580, 3835390401, 4022224774, 264347078, 604807628,
   770255983, 1249150122, 1555081692, 1996064986, 2554220882,
   2821834349, 2952996808, 3210313671, 3336571891, 3584528711,
   113926993, 338241895, 666307205, 773529912, 1294757372,
   1396182291, 1695183700, 1986661051, 2177026350, 2456956037,
   2730485921, 2820302411, 3259730800, 3345764771, 3516065817,
   3600352804, 4094571909, 275423344, 430227734, 506948616,
   659060556, 883997877, 958139571, 1322822218, 1537002063,
   1747873779, 1955562222, 2024104815, 2227730452, 2361852424,
   2428436474, 2756734187, 3204031479, 3329325298]

def shaH0 : List Nat :=
  [1779033703, 3144134277, 1013904242, 2773480762, 1359893119,
   2600822924, 528734635, 1541459225]

/-- Big-endian bytes of a 64-bit value. -/
def u64beBytes (n : Nat) : List Nat :=
  [n / 2 ^ 56 % 256, n / 2 ^ 48 % 256, n / 2 ^ 40 % 256, n / 2 ^ 32 % 256,
   n / 2 ^ 24 % 256, n / 2 ^ 16 % 256, n / 2 ^ 8 % 256, n % 256]

/-- Big-endian bytes of a 32-bit word. -/
def u32beBytes (n : Nat) : List Nat := [n / 2 ^ 24 % 256, n / 2 ^ 16 % 256, n / 2 ^ 8 % 256, n % 256]

/-- SHA-256 padding: 0x80, zeros to 56 mod 64, then the bit length on 8 bytes. -/
def sha256_pad (msg : List Nat) : List Nat :=
  msg ++ [0x80] ++ List.replicate ((119 - msg.length % 64) % 64) 0 ++ u64beBytes (8 * msg.length)

/-- Split into chunks of n bytes (n > 0). -/
def chunksOf (n : Nat) (l : List Nat) : List (List Nat) :=
  if h : l = [] ∨ n = 0 then []
  else l.take n :: chunksOf n (l.drop n)
termination_by l.length
decreasing_by
  rcases l with _ | ⟨x, xs⟩
  · simp at h
  · simp only [List.length_drop, List.length_cons]
    omega

/-- Extend the 16 message-schedule words to 64. -/
def extendW : Nat → List Nat → List Nat
  | 0, w => w
  | k + 1, w =>
      extendW k (w ++ [(shaSmallSigma1 (w.getD (w.length - 2) 0) + w.getD (w.length - 7) 0 +
                        shaSmallSigma0 (w.getD (w.length - 15) 0) + w.getD (w.length - 16) 0) % 2 ^ 32])

/-- One round of the SHA-256 compression function on the 8 registers. -/
def shaRound (regs : List Nat) (kw : Nat × Nat) : List Nat :=
  let a := regs.getD 0 0
  let b := regs.getD 1 0
  let c := regs.getD 2 0
  let d := regs.getD 3 0
  let e := regs.getD 4 0
  let f := regs.getD 5 0
  let g := regs.getD 6 0
  let h := regs.getD 7 0
  let t1 := (h + shaBigSigma1 e + shaCh e f g + kw.1 + kw.2) % 2 ^ 32
  let t2 := (shaBigSigma0 a + shaMaj a b c) % 2 ^ 32
  [(t1 + t2) % 2 ^ 32, a, b, c, (d + t1) % 2 ^ 32, e, f, g]

/-- Process one 64-byte block. -/
def shaBlock (h : List Nat) (block : List Nat) : List Nat :=
  let w := extendW 48 ((chunksOf 4 block).map readIntBE)
  let regs := (shaK.zip w).foldl shaRound h
  (h.zip regs).map (fun p => (p.1 + p.2) % 2 ^ 32)

/-- SHA-256 digest, 32 bytes. -/
def sha256 (msg : List Nat) : List Nat :=
  (((chunksOf 64 (sha256_pad msg)).foldl shaBlock shaH0).map u32beBytes).flatten

/-- ASCII code of the lowercase hex digit of d < 16. -/
def hexDigit (d : Nat) : Nat := if d < 10 then 48 + d else 87 + d

/-- hex::encode over a byte list, as ASCII codes. -/
def hex_encode (bytes : List Nat) : List Nat :=
  (bytes.map (fun b => [hexDigit (b / 16), hexDigit (b % 16)])).flatten

/-- sha256_hex from src/kiro/machine_id.rs. -/
def sha256_hex (input : List Nat) : List Nat := hex_encode (sha256 input)

/-- The two credential fields generate_from_credentials reads
(src/kiro/model/credentials.rs, KiroCredentials). -/
structure KiroCredentials where
  profile_arn : Option (List Nat)
  refresh_token : Option (List Nat)
deriving DecidableEq, Repr

/-- The config field generate_from_credentials reads (src/model/config.rs). -/
structure Config where
  machine_id : Option (List Nat)
deriving DecidableEq, Repr

/-- is_valid_profile_arn from src/kiro/machine_id.rs: non-empty, starts with
"arn:aws", contains "profile/". -/
def is_valid_profile_arn (s : List Nat) : Bool :=
  !s.isEmpty && (ascii "arn:aws").isPrefixOf s && decide (ascii "profile/" <:+: s)

/-- Fall-through tail of generate_from_credentials: derive from the refresh token. -/
def machineIdFromToken (credentials : KiroCredentials) : Option (List Nat) :=
  match credentials.refresh_token with
  | some rt => if rt.isEmpty then none else some (sha256_hex (ascii "KotlinNativeAPI/" ++ rt))
  | none => none

/-- Fall-through tail of generate_from_credentials: derive from the profile ARN. -/
def machineIdFromArn (credentials : KiroCredentials) : Option (List Nat) :=
  match credentials.profile_arn with
  | some arn =>
      if is_valid_profile_arn arn then some (sha256_hex (ascii "KotlinNativeAPI/" ++ arn))
      else machineIdFromToken credentials
  | none => machineIdFromToken credentials

/-- generate_from_credentials from src/kiro/machine_id.rs; the early returns of
the source become the fall-through helpers above. -/
def generate_from_credentials (credentials : KiroCredentials) (config : Config) :
    Option (List Nat) :=
  match config.machine_id with
  | some machine_id =>
      if machine_id.length = 64 then some machine_id else machineIdFromArn credentials
  | none => machineIdFromArn credentials

/-- Claim-side predicate: a byte is an ASCII hex digit. -/
def isHexDigitByte (b : Nat) : Bool :=
  (decide (48 ≤ b) && decide (b ≤ 57)) || (decide (97 ≤ b) && decide (b ≤ 102))
  || (decide (65 ≤ b) && decide (b ≤ 70))

/-- Claim-side reading of "matches ^arn:aws.*profile/": some decomposition
"arn:aws" ++ mid ++ "profile/" ++ rest. -/
def MatchesArnRegex (s : List Nat) : Prop :=
  ∃ mid rest, s = ascii "arn:aws" ++ mid ++ ascii "profile/" ++ rest

/-! ## Thinking budget (src/anthropic/types.rs) -/

def MAX_BUDGET_TOKENS : Int := 24576

def default_budget_tokens : Int := 20000

/-- deserialize_budget_tokens: the deserialized i32 capped with .min. -/
def deserialize_budget_tokens (value : Int) : Int := min value MAX_BUDGET_TOKENS

/-- Thinking from src/anthropic/types.rs. -/
structure Thinking where
  thinking_type : List Nat
  budget_tokens : Int
deriving DecidableEq, Repr

/-- Deserialization of Thinking per its serde attributes: an explicit
budget_tokens value goes through deserialize_budget_tokens, an absent one
takes default_budget_tokens. -/
def mkThinking (thinking_type : List Nat) (raw_budget : Option Int) : Thinking :=
  { thinking_type := thinking_type
    budget_tokens :=
      match raw_budget with
      | some v => deserialize_budget_tokens v
      | none => default_budget_tokens }

/-! ## Constant-time key comparison (src/anthropic/middleware.rs)

Both branches of the source return through a full traversal; the embedding only
keeps the computed value.  The u8 accumulator never wraps: it only ors xors of
bytes. -/

/-- constant_time_eq from src/anthropic/middleware.rs on UTF-8 byte lists. -/
def constant_time_eq (a b : List Nat) : Bool :=
  if a.length ≠ b.length then false
  else ((a.zip b).foldl (fun result p => result ||| (p.1 ^^^ p.2)) 0) == 0

/-! ## Concrete instances used by counterexamples and witnesses -/

/-- Left inverse of crcBit on 32-bit registers (proof device for CRC injectivity). -/
def crcBitInv (s : Nat) : Nat :=
  if s.testBit 31 then 2 * (s ^^^ CRC_POLY) + 1 else 2 * s

/-- A minimal well-formed frame: total_length 16, no headers, empty payload,
correct prelude and message CRCs. -/
def minimalFrame : List Nat :=
  [0, 0, 0, 16, 0, 0, 0, 0, 5, 194, 72, 235, 125, 152, 200, 255]

/-- minimalFrame with bit 0 of byte 3 flipped (total_length becomes 17). -/
def minimalFrameFlipped : List Nat :=
  [0, 0, 0, 17, 0, 0, 0, 0, 5, 194, 72, 235, 125, 152, 200, 255]

/-- A well-formed 26-byte frame: one string header (name ":t", value "ev") and
payload "hi", with correct CRCs. -/
def hdrFrame : List Nat :=
  [0, 0, 0, 26, 0, 0, 0, 8, 65, 169, 216, 120, 2, 58, 116, 7, 0, 2, 101, 118,
   104, 105, 178, 200, 156, 69]

/-- An "event" frame with an unrecognized event type and payload [1]. -/
def frameU1 : Frame :=
  { headers := [(ascii ":message-type", .string (ascii "event")),
                (ascii ":event-type", .string (ascii "customEventA"))]
    payload := [1] }

/-- An "event" frame with a different unrecognized event type and payload [2, 3]. -/
def frameU2 : Frame :=
  { headers := [(ascii ":message-type", .string (ascii "event")),
                (ascii ":event-type", .string (ascii "customEventB"))]
    payload := [2, 3] }

end Kiro2api

deriving instance DecidableEq for Except

namespace Kiro2api

/-! # Theorems -/

/-! ## C10: constant-time comparison decides byte equality -/

theorem nat_or_eq_zero {x y : Nat} : x ||| y = 0 ↔ x = 0 ∧ y = 0 := by
  constructor
  · intro h
    constructor <;> (apply Nat.eq_of_testBit_eq; intro i) <;>
      (have hbit := congrArg (fun n => n.testBit i) h
       simp only [Nat.testBit_or, Nat.zero_testBit, Bool.or_eq_false_iff] at hbit
       simp [Nat.zero_testBit, hbit.1, hbit.2])
  · rintro ⟨rfl, rfl⟩
    rfl

theorem ct_fold_eq_zero (l : List (Nat × Nat)) (acc : Nat) :
    (l.foldl (fun result p => result ||| (p.1 ^^^ p.2)) acc = 0) ↔
      (acc = 0 ∧ ∀ p ∈ l, p.1 = p.2) := by
  induction l generalizing acc with
  | nil => simp
  | cons p l ih =>
      rw [List.foldl_cons, ih]
      constructor
      · rintro ⟨h0, hall⟩
        rcases nat_or_eq_zero.mp h0 with ⟨ha, hx⟩
        exact ⟨ha, by simpa [Nat.xor_eq_zero.mp hx] using hall⟩
      · rintro ⟨ha, hall⟩
        refine ⟨?_, fun q hq => hall q (List.mem_cons_of_mem _ hq)⟩
        rw [ha, Nat.zero_or, Nat.xor_eq_zero]
        exact hall p (List.mem_cons_self _ _)

theorem zip_pointwise_eq {a b : List Nat} (hlen : a.length = b.length)
    (h : ∀ p ∈ a.zip b, p.1 = p.2) : a = b := by
  induction a generalizing b with
  | nil => exact (List.length_eq_zero.mp hlen.symm).symm
  | cons x xs ih =>
      cases b with
      | nil => simp at hlen
      | cons y ys =>
          simp only [List.zip_cons_cons, List.mem_cons] at h
          have hxy := h (x, y) (Or.inl rfl)
          simp only at hxy
          rw [hxy, ih (by simpa using hlen) (fun p hp => h p (Or.inr hp))]

theorem mem_zip_same {a : List Nat} {p : Nat × Nat} (hp : p ∈ a.zip a) : p.1 = p.2 := by
  induction a with
  | nil => simp at hp
  | cons x xs ih =>
      rcases (by simpa using hp : p = (x, x) ∨ p ∈ xs.zip xs) with h | h
      · rw [h]
      · exact ih h

/-- Claim C10: the API-key comparison constant_time_eq returns true exactly on
byte-for-byte equal inputs; inputs of different lengths always compare false. -/
theorem C10_constant_time_eq (a b : List Nat) : constant_time_eq a b = true ↔ a = b := by
  unfold constant_time_eq
  by_cases hlen : a.length = b.length
  · rw [if_neg (by simpa using hlen)]
    simp only [beq_iff_eq, ct_fold_eq_zero]
    constructor
    · rintro ⟨-, hall⟩
      exact zip_pointwise_eq hlen hall
    · rintro rfl
      exact ⟨by trivial, fun p hp => mem_zip_same hp⟩
  · rw [if_pos (by simpa using hlen)]
    constructor
    · intro h
      cases h
    · intro h
      exact absurd (by rw [h]) hlen

/-! ## C9: thinking budget cap -/

/-- Claim C9: an explicitly supplied thinking budget b is stored as
min(b, 24576), hence never exceeds 24576. -/
theorem C9_budget_cap (thinking_type : List Nat) (b : Int) :
    (mkThinking thinking_type (some b)).budget_tokens = min b 24576 ∧
      (mkThinking thinking_type (some b)).budget_tokens ≤ 24576 := by
  constructor
  · rfl
  · exact min_le_right b 24576

/-! ## C8: rate-limit errors start a five-minute cooldown -/

/-- Claim C8: record_error with is_rate_limit = true sets status Cooldown,
cooldown_until = now + 5 minutes (300 s), and bumps error_count. -/
theorem C8_rate_limit_cooldown (a : Account) (now : Int) :
    (a.record_error true now).status = .Cooldown ∧
      (a.record_error true now).cooldown_until = some (now + 300) ∧
      (a.record_error true now).error_count = a.error_count + 1 := by
  refine ⟨rfl, rfl, rfl⟩

/-! ## C7: availability (corrected: a Cooldown account with no cooldown_until
timestamp counts as available) -/

/-- Claim C7 as stated is false: this Cooldown account has no cooldown_until
timestamp at all, yet is_available returns true, though no timestamp u with
cooldown_until = some u and u ≤ now exists. -/
theorem C7_counterexample :
    Account.is_available
        { id := [], name := [], status := .Cooldown, request_count := 0, error_count := 0,
          last_used_at := none, cooldown_until := none, created_at := 0 } 0 = true ∧
      ({ id := [], name := [], status := .Cooldown, request_count := 0, error_count := 0,
         last_used_at := none, cooldown_until := none,
         created_at := 0 } : Account).cooldown_until = none ∧
      ¬ (((.Cooldown : AccountStatus) = .Active) ∨
          ((.Cooldown : AccountStatus) = .Cooldown ∧
            ∃ u : Int, (none : Option Int) = some u ∧ u ≤ 0)) := by
  refine ⟨rfl, rfl, ?_⟩
  rintro (h | ⟨-, u, hu, -⟩)
  · cases h
  · cases hu

/-- Claim C7 amended: is_available is true iff the status is Active, or the
status is Cooldown and cooldown_until is unset or at most now. -/
theorem C7_is_available_iff (a : Account) (now : Int) :
    a.is_available now = true ↔
      (a.status = .Active ∨
        (a.status = .Cooldown ∧ ∀ u, a.cooldown_until = some u → u ≤ now)) := by
  unfold Account.is_available
  rcases ha : a.status <;> simp only [ha]
  · simp
  · cases hcu : a.cooldown_until <;> simp [hcu]
  · simp
  · simp

/-! ## C6: terminal statuses (corrected: a rate-limit record_error moves even
Invalid and Disabled accounts into Cooldown) -/

/-- Claim C6 as stated is false: record_error(is_rate_limit = true) on an
Invalid account changes its status to Cooldown. -/
theorem C6_counterexample :
    (({ id := [], name := [], status := .Invalid, request_count := 0, error_count := 0,
        last_used_at := none, cooldown_until := none,
        created_at := 0 } : Account).record_error true 0).status = .Cooldown ∧
      ({ id := [], name := [], status := .Invalid, request_count := 0, error_count := 0,
         last_used_at := none, cooldown_until := none,
         created_at := 0 } : Account).status = .Invalid ∧
      (AccountStatus.Cooldown ≠ .Invalid) := by
  exact ⟨rfl, rfl, by decide⟩

/-- Claim C6 amended: Invalid and Disabled survive record_use and non-rate-limit
record_error unchanged; a rate-limit record_error moves any account (these
included) to Cooldown; enable lifts only Disabled to Active and never Invalid. -/
theorem C6_terminal_amended (a : Account) (now : Int)
    (h : a.status = .Invalid ∨ a.status = .Disabled) :
    (a.record_use now).status = a.status ∧
      (a.record_error false now).status = a.status ∧
      (a.record_error true now).status = .Cooldown ∧
      (a.status = .Disabled → a.enable.status = .Active) ∧
      (a.status = .Invalid → a.enable.status = .Invalid) := by
  refine ⟨?_, rfl, rfl, ?_, ?_⟩
  · unfold Account.record_use
    rcases h with h | h <;> rw [if_neg] <;> simp [h]
  · intro hd
    unfold Account.enable
    rw [if_pos hd]
  · intro hi
    unfold Account.enable
    rw [if_neg (by simp [hi])]
    exact hi

/-- Witness for C6_terminal_amended at a concrete Invalid account. -/
theorem C6_terminal_amended_witness :
    (({ id := [], name := [], status := .Invalid, request_count := 3, error_count := 0,
        last_used_at := none, cooldown_until := none,
        created_at := 0 } : Account).record_use 7).status = .Invalid :=
  (C6_terminal_amended
    { id := [], name := [], status := .Invalid, request_count := 3, error_count := 0,
      last_used_at := none, cooldown_until := none, created_at := 0 } 7
    (Or.inl rfl)).1

/-- Witness for C7_is_available_iff at a concrete Active account. -/
theorem C7_is_available_witness :
    Account.is_available
      { id := [], name := [], status := .Active, request_count := 0, error_count := 0,
        last_used_at := none, cooldown_until := none, created_at := 0 } 5 = true :=
  (C7_is_available_iff
    { id := [], name := [], status := .Active, request_count := 0, error_count := 0,
      last_used_at := none, cooldown_until := none, created_at := 0 } 5).mpr (Or.inl rfl)

/-! ## C5: machine fingerprint selection (corrected: the override check is
"64 bytes long", not "64 hex characters") -/

theorem ascii_aws : ascii "arn:aws" = [97, 114, 110, 58, 97, 119, 115] := by decide

theorem ascii_pro : ascii "profile/" = [112, 114, 111, 102, 105, 108, 101, 47] := by decide

theorem arn_regex_iff (s : List Nat) :
    is_valid_profile_arn s = true ↔ MatchesArnRegex s := by
  unfold is_valid_profile_arn MatchesArnRegex
  constructor
  · intro h
    simp only [Bool.and_eq_true, Bool.not_eq_true', decide_eq_true_eq] at h
    obtain ⟨⟨-, hpre⟩, hinf⟩ := h
    have hpre' : ascii "arn:aws" <+: s := List.isPrefixOf_iff_prefix.mp hpre
    obtain ⟨pfx, sfx, hif⟩ := hinf
    by_cases hlen : 7 ≤ pfx.length
    · refine ⟨pfx.drop 7, sfx, ?_⟩
      have hpfx_pre : pfx <+: s := ⟨ascii "profile/" ++ sfx, by rw [← hif]; simp⟩
      have haws_pfx : ascii "arn:aws" <+: pfx :=
        List.prefix_of_prefix_length_le hpre' hpfx_pre (by rw [ascii_aws]; simpa using hlen)
      obtain ⟨m2, hm2⟩ := haws_pfx
      have hdrop : pfx.drop 7 = m2 := by
        rw [← hm2, show (7 : Nat) = (ascii "arn:aws").length by rw [ascii_aws]; rfl]
        exact List.drop_left (ascii "arn:aws") m2
      rw [hdrop, hm2]
      exact hif.symm
    · exfalso
      have h7 : pfx.length < 7 := Nat.lt_of_not_le hlen
      have h1 : s.getD pfx.length 0 = 112 := by
        rw [← hif, List.append_assoc,
            List.getD_append_right pfx _ 0 pfx.length le_rfl, Nat.sub_self, ascii_pro]
        rfl
      obtain ⟨u, hu⟩ := hpre'
      have h2 : s.getD pfx.length 0 = (ascii "arn:aws").getD pfx.length 0 := by
        rw [← hu]
        exact List.getD_append (ascii "arn:aws") u 0 pfx.length (by rw [ascii_aws]; simpa using h7)
      rw [h1, ascii_aws] at h2
      set k := pfx.length with hk
      interval_cases k <;> exact absurd h2 (by decide)
  · rintro ⟨mid, rest, rfl⟩
    simp only [Bool.and_eq_true, Bool.not_eq_true', decide_eq_true_eq]
    refine ⟨⟨?_, ?_⟩, ?_⟩
    · rw [ascii_aws]
      rfl
    · exact List.isPrefixOf_iff_prefix.mpr ⟨mid ++ ascii "profile/" ++ rest, by simp⟩
    · exact ⟨ascii "arn:aws" ++ mid, rest, by simp⟩

theorem generate_eq_some {config : Config} (credentials : KiroCredentials) {m : List Nat}
    (hm : config.machine_id = some m) :
    generate_from_credentials credentials config =
      if m.length = 64 then some m else machineIdFromArn credentials := by
  unfold generate_from_credentials
  rw [hm]

theorem generate_eq_none {config : Config} (credentials : KiroCredentials)
    (hm : config.machine_id = none) :
    generate_from_credentials credentials config = machineIdFromArn credentials := by
  unfold generate_from_credentials
  rw [hm]

theorem fromArn_eq_some {credentials : KiroCredentials} {arn : List Nat}
    (ha : credentials.profile_arn = some arn) :
    machineIdFromArn credentials =
      if is_valid_profile_arn arn then some (sha256_hex (ascii "KotlinNativeAPI/" ++ arn))
      else machineIdFromToken credentials := by
  unfold machineIdFromArn
  rw [ha]

theorem fromArn_eq_none {credentials : KiroCredentials}
    (ha : credentials.profile_arn = none) :
    machineIdFromArn credentials = machineIdFromToken credentials := by
  unfold machineIdFromArn
  rw [ha]

theorem fromToken_eq_some {credentials : KiroCredentials} {rt : List Nat}
    (ht : credentials.refresh_token = some rt) :
    machineIdFromToken credentials =
      if rt.isEmpty then none else some (sha256_hex (ascii "KotlinNativeAPI/" ++ rt)) := by
  unfold machineIdFromToken
  rw [ht]

theorem fromToken_eq_none {credentials : KiroCredentials}
    (ht : credentials.refresh_token = none) :
    machineIdFromToken credentials = none := by
  unfold machineIdFromToken
  rw [ht]

/-- Claim C5 as stated is false: a 64-byte machine_id override consisting of
non-hex bytes (all "z") is returned verbatim even though no other credential
source exists, while the claim requires 64 hex characters for the override to
be used and a failure otherwise. -/
theorem C5_counterexample :
    generate_from_credentials { profile_arn := none, refresh_token := none }
        { machine_id := some (List.replicate 64 122) } = some (List.replicate 64 122) ∧
      (List.replicate 64 122).length = 64 ∧
      isHexDigitByte 122 = false ∧
      (∀ b, b ∈ List.replicate 64 122 → b = 122) := by
  refine ⟨rfl, rfl, rfl, fun b hb => List.eq_of_mem_replicate hb⟩

/-- Claim C5 amended: generate_from_credentials returns the machine_id override
exactly when it is 64 bytes long; otherwise sha256_hex("KotlinNativeAPI/" ++
profile ARN) when the ARN matches ^arn:aws.*profile/; otherwise
sha256_hex("KotlinNativeAPI/" ++ refresh token) when that token is present and
non-empty; otherwise none. -/
theorem C5_fingerprint_amended (credentials : KiroCredentials) (config : Config) :
    (∀ m, config.machine_id = some m → m.length = 64 →
        generate_from_credentials credentials config = some m)
  ∧ ((config.machine_id = none ∨ ∃ m, config.machine_id = some m ∧ m.length ≠ 64) →
      ((∀ arn, credentials.profile_arn = some arn → MatchesArnRegex arn →
          generate_from_credentials credentials config =
            some (sha256_hex (ascii "KotlinNativeAPI/" ++ arn)))
       ∧ ((credentials.profile_arn = none ∨
            ∃ arn, credentials.profile_arn = some arn ∧ ¬ MatchesArnRegex arn) →
          ((∀ rt, credentials.refresh_token = some rt → rt ≠ [] →
              generate_from_credentials credentials config =
                some (sha256_hex (ascii "KotlinNativeAPI/" ++ rt)))
           ∧ ((credentials.refresh_token = none ∨ credentials.refresh_token = some []) →
              generate_from_credentials credentials config = none))))) := by
  constructor
  · rintro m hm h64
    rw [generate_eq_some credentials hm, if_pos h64]
  · intro hno
    have hgen : generate_from_credentials credentials config = machineIdFromArn credentials := by
      rcases hno with hnone | ⟨m, hm, h64⟩
      · exact generate_eq_none credentials hnone
      · rw [generate_eq_some credentials hm, if_neg h64]
    constructor
    · intro arn harn hmatch
      rw [hgen, fromArn_eq_some harn, if_pos ((arn_regex_iff arn).mpr hmatch)]
    · intro hnoarn
      have hgen2 : machineIdFromArn credentials = machineIdFromToken credentials := by
        rcases hnoarn with hnone | ⟨arn, harn, hnm⟩
        · exact fromArn_eq_none hnone
        · rw [fromArn_eq_some harn, if_neg (fun hv => hnm ((arn_regex_iff arn).mp hv))]
      constructor
      · intro rt hrt hne
        rw [hgen, hgen2, fromToken_eq_some hrt,
            if_neg (by simpa [List.isEmpty_iff] using hne)]
      · intro hnort
        rw [hgen, hgen2]
        rcases hnort with h | h
        · exact fromToken_eq_none h
        · rw [fromToken_eq_some h]
          rfl

/-- Witness for C5_fingerprint_amended: the ARN branch at a concrete credential. -/
theorem C5_fingerprint_witness :
    generate_from_credentials
        { profile_arn := some (ascii "arn:aws:sso::12:profile/x"), refresh_token := none }
        { machine_id := none } =
      some (sha256_hex (ascii "KotlinNativeAPI/" ++ ascii "arn:aws:sso::12:profile/x")) :=
  ((C5_fingerprint_amended
      { profile_arn := some (ascii "arn:aws:sso::12:profile/x"), refresh_token := none }
      { machine_id := none }).2 (Or.inl rfl)).1
    (ascii "arn:aws:sso::12:profile/x") rfl ⟨ascii ":sso::12:", ascii "x", by decide⟩

/-! ## C2: the local token estimator -/

theorem is_non_western_char_eq (c : Nat) : is_non_western_char c = !westernSpec c := by
  unfold is_non_western_char westernSpec
  congr 1
  apply Bool.eq_iff_iff.mpr
  simp only [Bool.or_eq_true, Bool.and_eq_true, decide_eq_true_eq]
  omega

theorem char_units_cast (text : List Nat) :
    (text.map (fun c => if is_non_western_char c then (4 : ℚ) else 1)).sum
      = (charUnitsSpec text : ℚ) := by
  induction text with
  | nil => simp [charUnitsSpec]
  | cons c l ih =>
      have hc : (if is_non_western_char c then (4 : ℚ) else 1)
          = ((if westernSpec c then 1 else 4 : Nat) : ℚ) := by
        rw [is_non_western_char_eq]
        cases westernSpec c <;> simp
      simp only [charUnitsSpec, List.map_cons, List.sum_cons, Nat.cast_add] at ih ⊢
      rw [hc, ih]

/-- Claim C2: count_tokens equals the truncation of scale(u/4) where u counts 1
per character of the claimed Western set and 4 per other character, and scale
uses the factors 1.5 / 1.3 / 1.25 / 1.2 / 1.0 at the claimed thresholds. -/
theorem C2_count_tokens (text : List Nat) :
    count_tokens text = specTokens (charUnitsSpec text) := by
  unfold count_tokens specTokens scaleSpec
  rw [char_units_cast]
  simp only [mul_one]

/-! ## C4: the Unknown catch-all drops the frame data (code bug: the variant's
own doc comment says it keeps the original frame data, and the spec gives it
event_type and payload fields, but Unknown {} has no fields) -/

/-- Claim C4 fails on the code: two "event" frames with different unrecognized
event types and different payloads both map to the fieldless Event.Unknown, so
the results are equal and carry neither event type nor payload; this holds for
every choice of the three payload decoders. -/
theorem C4_unknown_drops_data :
    ∀ (pA : Frame → ParseResult AssistantResponseEvent)
      (pT : Frame → ParseResult ToolUseEvent)
      (pC : Frame → ParseResult ContextUsageEvent),
      Event.from_frame pA pT pC frameU1 = .ok .Unknown ∧
      Event.from_frame pA pT pC frameU2 = .ok .Unknown ∧
      Event.from_frame pA pT pC frameU1 = Event.from_frame pA pT pC frameU2 ∧
      frameU1.event_type ≠ frameU2.event_type ∧
      frameU1.payload ≠ frameU2.payload := by
  intro pA pT pC
  exact ⟨rfl, rfl, rfl, by decide, by decide⟩

/-! ## C1: parse_frame follows the specified algorithm

The evaluation lemmas below step parse_frame through its branch structure; the
claim theorem assembles them. -/

theorem parse_frame_short {buffer : List Nat} (h1 : buffer.length < PRELUDE_SIZE) :
    parse_frame buffer = .ok none := by
  simp only [parse_frame]
  rw [if_pos h1]

theorem parse_frame_small {buffer : List Nat} (h1 : ¬ buffer.length < PRELUDE_SIZE)
    (h2 : readU32BE buffer 0 < MIN_MESSAGE_SIZE) :
    parse_frame buffer = .error (.MessageTooSmall (readU32BE buffer 0) MIN_MESSAGE_SIZE) := by
  simp only [parse_frame]
  rw [if_neg h1, if_pos h2]

theorem parse_frame_large {buffer : List Nat} (h1 : ¬ buffer.length < PRELUDE_SIZE)
    (h2 : ¬ readU32BE buffer 0 < MIN_MESSAGE_SIZE)
    (h3 : MAX_MESSAGE_SIZE < readU32BE buffer 0) :
    parse_frame buffer = .error (.MessageTooLarge (readU32BE buffer 0) MAX_MESSAGE_SIZE) := by
  simp only [parse_frame]
  rw [if_neg h1, if_neg h2, if_pos h3]

theorem parse_frame_incomplete {buffer : List Nat} (h1 : ¬ buffer.length < PRELUDE_SIZE)
    (h2 : ¬ readU32BE buffer 0 < MIN_MESSAGE_SIZE)
    (h3 : ¬ MAX_MESSAGE_SIZE < readU32BE buffer 0)
    (h4 : buffer.length < readU32BE buffer 0) :
    parse_frame buffer = .ok none := by
  simp only [parse_frame]
  rw [if_neg h1, if_neg h2, if_neg h3, if_pos h4]

theorem parse_frame_prelude_mismatch {buffer : List Nat}
    (h1 : ¬ buffer.length < PRELUDE_SIZE)
    (h2 : ¬ readU32BE buffer 0 < MIN_MESSAGE_SIZE)
    (h3 : ¬ MAX_MESSAGE_SIZE < readU32BE buffer 0)
    (h4 : ¬ buffer.length < readU32BE buffer 0)
    (h5 : crc32 (buffer.take 8) ≠ readU32BE buffer 8) :
    parse_frame buffer = .error (.PreludeCrcMismatch (readU32BE buffer 8) (crc32 (buffer.take 8))) := by
  simp only [parse_frame]
  rw [if_neg h1, if_neg h2, if_neg h3, if_neg h4, if_pos h5]

theorem parse_frame_msgcrc_mismatch {buffer : List Nat}
    (h1 : ¬ buffer.length < PRELUDE_SIZE)
    (h2 : ¬ readU32BE buffer 0 < MIN_MESSAGE_SIZE)
    (h3 : ¬ MAX_MESSAGE_SIZE < readU32BE buffer 0)
    (h4 : ¬ buffer.length < readU32BE buffer 0)
    (h5 : crc32 (buffer.take 8) = readU32BE buffer 8)
    (h6 : crc32 (buffer.take (readU32BE buffer 0 - 4)) ≠
            readU32BE buffer (readU32BE buffer 0 - 4)) :
    parse_frame buffer =
      .error (.MessageCrcMismatch (readU32BE buffer (readU32BE buffer 0 - 4))
                                  (crc32 (buffer.take (readU32BE buffer 0 - 4)))) := by
  simp only [parse_frame]
  rw [if_neg h1, if_neg h2, if_neg h3, if_neg h4, if_neg (not_not_intro h5), if_pos h6]

theorem parse_frame_header_bound {buffer : List Nat}
    (h1 : ¬ buffer.length < PRELUDE_SIZE)
    (h2 : ¬ readU32BE buffer 0 < MIN_MESSAGE_SIZE)
    (h3 : ¬ MAX_MESSAGE_SIZE < readU32BE buffer 0)
    (h4 : ¬ buffer.length < readU32BE buffer 0)
    (h5 : crc32 (buffer.take 8) = readU32BE buffer 8)
    (h6 : crc32 (buffer.take (readU32BE buffer 0 - 4)) =
            readU32BE buffer (readU32BE buffer 0 - 4))
    (h7 : readU32BE buffer 0 - 4 < PRELUDE_SIZE + readU32BE buffer 4) :
    parse_frame buffer = .error (.HeaderParseFailed "header length exceeds message bounds") := by
  simp only [parse_frame]
  rw [if_neg h1, if_neg h2, if_neg h3, if_neg h4, if_neg (not_not_intro h5),
      if_neg (not_not_intro h6), if_pos h7]

theorem parse_frame_success {buffer : List Nat} {hs : Headers}
    (h1 : ¬ buffer.length < PRELUDE_SIZE)
    (h2 : ¬ readU32BE buffer 0 < MIN_MESSAGE_SIZE)
    (h3 : ¬ MAX_MESSAGE_SIZE < readU32BE buffer 0)
    (h4 : ¬ buffer.length < readU32BE buffer 0)
    (h5 : crc32 (buffer.take 8) = readU32BE buffer 8)
    (h6 : crc32 (buffer.take (readU32BE buffer 0 - 4)) =
            readU32BE buffer (readU32BE buffer 0 - 4))
    (h7 : ¬ readU32BE buffer 0 - 4 < PRELUDE_SIZE + readU32BE buffer 4)
    (h8 : parse_headers (listSlice buffer PRELUDE_SIZE (PRELUDE_SIZE + readU32BE buffer 4))
            (readU32BE buffer 4) = .ok hs) :
    parse_frame buffer =
      .ok (some ({ headers := hs,
                   payload := listSlice buffer (PRELUDE_SIZE + readU32BE buffer 4)
                                (readU32BE buffer 0 - 4) },
                 readU32BE buffer 0)) := by
  simp only [parse_frame]
  rw [if_neg h1, if_neg h2, if_neg h3, if_neg h4, if_neg (not_not_intro h5),
      if_neg (not_not_intro h6), if_neg h7, h8]

/-- Claim C1: parse_frame follows the specified algorithm: None below 12 bytes;
MessageTooSmall when total_length < 16 and MessageTooLarge above 16 MiB; None
while the buffer is shorter than total_length; PreludeCrcMismatch when the CRC
of the first 8 bytes differs from the stored one, then MessageCrcMismatch over
the first total_length-4 bytes; HeaderParseFailed when header_length >
total_length - 16; on success the payload is buffer[12+header_length ..
total_length-4] and consumed = total_length. -/
theorem C1_parse_frame_spec (buffer : List Nat) :
    (buffer.length < 12 → parse_frame buffer = .ok none)
  ∧ (12 ≤ buffer.length →
     (readU32BE buffer 0 < 16 →
        parse_frame buffer = .error (.MessageTooSmall (readU32BE buffer 0) 16))
   ∧ (16 * 1024 * 1024 < readU32BE buffer 0 →
        parse_frame buffer = .error (.MessageTooLarge (readU32BE buffer 0) (16 * 1024 * 1024)))
   ∧ (16 ≤ readU32BE buffer 0 → readU32BE buffer 0 ≤ 16 * 1024 * 1024 →
        buffer.length < readU32BE buffer 0 → parse_frame buffer = .ok none)
   ∧ (16 ≤ readU32BE buffer 0 → readU32BE buffer 0 ≤ 16 * 1024 * 1024 →
        readU32BE buffer 0 ≤ buffer.length →
        (crc32 (buffer.take 8) ≠ readU32BE buffer 8 →
            parse_frame buffer =
              .error (.PreludeCrcMismatch (readU32BE buffer 8) (crc32 (buffer.take 8))))
      ∧ (crc32 (buffer.take 8) = readU32BE buffer 8 →
         (crc32 (buffer.take (readU32BE buffer 0 - 4)) ≠
              readU32BE buffer (readU32BE buffer 0 - 4) →
            parse_frame buffer =
              .error (.MessageCrcMismatch (readU32BE buffer (readU32BE buffer 0 - 4))
                                          (crc32 (buffer.take (readU32BE buffer 0 - 4)))))
       ∧ (crc32 (buffer.take (readU32BE buffer 0 - 4)) =
              readU32BE buffer (readU32BE buffer 0 - 4) →
          (readU32BE buffer 0 - 16 < readU32BE buffer 4 →
             ∃ msg, parse_frame buffer = .error (.HeaderParseFailed msg))
        ∧ (readU32BE buffer 4 ≤ readU32BE buffer 0 - 16 →
           ∀ hs, parse_headers (listSlice buffer 12 (12 + readU32BE buffer 4))
                   (readU32BE buffer 4) = .ok hs →
             parse_frame buffer =
               .ok (some ({ headers := hs,
                            payload := listSlice buffer (12 + readU32BE buffer 4)
                                         (readU32BE buffer 0 - 4) },
                          readU32BE buffer 0))))))) := by
  have hpsz : PRELUDE_SIZE = 12 := rfl
  have hmin : MIN_MESSAGE_SIZE = 16 := rfl
  have hmax : MAX_MESSAGE_SIZE = 16 * 1024 * 1024 := rfl
  refine ⟨fun h => parse_frame_short (by omega), fun h12 => ⟨?_, ?_, ?_, ?_⟩⟩
  · intro hs
    rw [← hmin]
    exact parse_frame_small (by omega) (by omega)
  · intro hl
    rw [← hmax]
    exact parse_frame_large (by omega) (by omega) (by omega)
  · intro h16 hle hlt
    exact parse_frame_incomplete (by omega) (by omega) (by omega) (by omega)
  · intro h16 hle hlen
    refine ⟨fun hpre => parse_frame_prelude_mismatch (by omega) (by omega) (by omega)
      (by omega) hpre, fun hpre => ⟨?_, ?_⟩⟩
    · intro hmsg
      exact parse_frame_msgcrc_mismatch (by omega) (by omega) (by omega) (by omega) hpre hmsg
    · intro hmsg
      refine ⟨fun hbound => ⟨"header length exceeds message bounds", ?_⟩, ?_⟩
      · exact parse_frame_header_bound (by omega) (by omega) (by omega) (by omega)
          hpre hmsg (by omega)
      · intro hbound hs hok
        rw [show (12 : Nat) = PRELUDE_SIZE from rfl]
        exact parse_frame_success (by omega) (by omega) (by omega) (by omega)
          hpre hmsg (by omega) (by rw [← hpsz] at hok; exact hok)

set_option maxRecDepth 200000 in
/-- Witness for C1_parse_frame_spec: the success branch at a concrete minimal
frame of total_length 16 with no headers and an empty payload. -/
theorem C1_parse_frame_witness :
    parse_frame minimalFrame =
      .ok (some ({ headers := [],
                   payload := listSlice minimalFrame (12 + readU32BE minimalFrame 4)
                                (readU32BE minimalFrame 0 - 4) },
                 readU32BE minimalFrame 0)) :=
  (((((C1_parse_frame_spec minimalFrame).2 (by decide)).2.2.2 (by decide) (by decide)
      (by decide)).2 (by decide)).2 (by decide)).2 (by decide) [] (by decide)

/-! ## C3: single-bit corruption (corrected: a flip inside the first 8 bytes
changes total_length or header_length, so the parser can instead report a
length error or ask for more bytes; only when the length checks still pass is
the failure PreludeCrcMismatch)

The lemmas below establish that CRC32 detects every single-byte difference:
the bit-step is GF(2)-linear and injective on 32-bit registers, so the final
register difference of two buffers differing in one byte is the image of a
nonzero value under an injective map. -/

theorem xor_div_two (a b : Nat) : (a ^^^ b) / 2 = a / 2 ^^^ b / 2 := by
  apply Nat.eq_of_testBit_eq
  intro i
  simp only [Nat.testBit_div_two, Nat.testBit_xor]

theorem xor_mod_two (a b : Nat) : (a ^^^ b) % 2 = (a % 2) ^^^ (b % 2) := by
  have h := Nat.testBit_xor a b 0
  simp only [Nat.testBit_zero] at h
  rcases Nat.mod_two_eq_zero_or_one a with ha | ha <;>
    rcases Nat.mod_two_eq_zero_or_one b with hb | hb <;>
    simp [ha, hb] at h ⊢ <;> omega

theorem xor_xor_cancel (x y p : Nat) : (x ^^^ p) ^^^ (y ^^^ p) = x ^^^ y := by
  rw [Nat.xor_comm y p, ← Nat.xor_assoc, Nat.xor_assoc x p p, Nat.xor_self, Nat.xor_zero]

theorem crcBit_xor (a b : Nat) : crcBit (a ^^^ b) = crcBit a ^^^ crcBit b := by
  unfold crcBit
  have hm := xor_mod_two a b
  rcases Nat.mod_two_eq_zero_or_one a with ha | ha <;>
    rcases Nat.mod_two_eq_zero_or_one b with hb | hb <;>
    rw [ha, hb] at hm <;>
    simp only [ha, hb, hm] <;>
    norm_num
  · exact xor_div_two a b
  · rw [xor_div_two, Nat.xor_assoc]
  · rw [xor_div_two, Nat.xor_assoc, Nat.xor_comm (b / 2) CRC_POLY, ← Nat.xor_assoc]
  · rw [xor_div_two]
    exact (xor_xor_cancel _ _ _).symm

theorem crcBitN_xor (k a b : Nat) : crcBit^[k] (a ^^^ b) = crcBit^[k] a ^^^ crcBit^[k] b := by
  induction k with
  | zero => simp
  | succ k ih => simp only [Function.iterate_succ_apply', ih, crcBit_xor]

theorem crcBit_lt {c : Nat} (h : c < 2 ^ 32) : crcBit c < 2 ^ 32 := by
  unfold crcBit
  split
  · exact Nat.xor_lt_two_pow (by omega) (by decide)
  · omega

theorem crcBitN_lt {c : Nat} (k : Nat) (h : c < 2 ^ 32) : crcBit^[k] c < 2 ^ 32 := by
  induction k with
  | zero => simpa using h
  | succ k ih => rw [Function.iterate_succ_apply']; exact crcBit_lt ih

theorem crcBit_zero : crcBit 0 = 0 := by decide

theorem crcBitN_zero (k : Nat) : crcBit^[k] 0 = 0 := by
  induction k with
  | zero => rfl
  | succ k ih => rw [Function.iterate_succ_apply', ih, crcBit_zero]

theorem crcBitInv_crcBit {c : Nat} (h : c < 2 ^ 32) : crcBitInv (crcBit c) = c := by
  unfold crcBit crcBitInv
  have hdiv : c / 2 < 2 ^ 31 := by omega
  rcases Nat.mod_two_eq_zero_or_one c with hc | hc
  · rw [if_neg (by omega : ¬ c % 2 = 1), if_neg (by simp [Nat.testBit_lt_two_pow hdiv])]
    omega
  · rw [if_pos hc]
    have ht : (c / 2 ^^^ CRC_POLY).testBit 31 = true := by
      rw [Nat.testBit_xor, Nat.testBit_lt_two_pow hdiv]
      decide
    rw [if_pos ht, Nat.xor_assoc, Nat.xor_self, Nat.xor_zero]
    omega

theorem crcBitN_inj {a b : Nat} (k : Nat) (ha : a < 2 ^ 32) (hb : b < 2 ^ 32)
    (h : crcBit^[k] a = crcBit^[k] b) : a = b := by
  induction k with
  | zero => exact h
  | succ k ih =>
      apply ih
      rw [Function.iterate_succ_apply', Function.iterate_succ_apply'] at h
      have := congrArg crcBitInv h
      rwa [crcBitInv_crcBit (crcBitN_lt k ha), crcBitInv_crcBit (crcBitN_lt k hb)] at this

theorem crcByte_diff (c x y : Nat) : crcByte c x ^^^ crcByte c y = crcBit^[8] (x ^^^ y) := by
  unfold crcByte
  rw [← crcBitN_xor]
  congr 1
  rw [Nat.xor_comm c x, Nat.xor_comm c y]
  exact xor_xor_cancel x y c

theorem crcByte_diff_reg (x c c' : Nat) :
    crcByte c x ^^^ crcByte c' x = crcBit^[8] (c ^^^ c') := by
  unfold crcByte
  rw [← crcBitN_xor]
  congr 1
  exact xor_xor_cancel c c' x

theorem foldl_crcByte_diff (l : List Nat) (c c' : Nat) :
    l.foldl crcByte c ^^^ l.foldl crcByte c' = crcBit^[8 * l.length] (c ^^^ c') := by
  induction l generalizing c c' with
  | nil => simp
  | cons x l ih =>
      simp only [List.foldl_cons, List.length_cons]
      rw [ih, crcByte_diff_reg, ← Function.iterate_add_apply,
          show 8 * l.length + 8 = 8 * (l.length + 1) from by ring]

/-- CRC32 distinguishes any two buffers that differ in exactly one byte. -/
theorem crc32_flip_ne (p s : List Nat) (b d : Nat) (hd0 : d ≠ 0) (hd32 : d < 2 ^ 32) :
    crc32 (p ++ b :: s) ≠ crc32 (p ++ (b ^^^ d) :: s) := by
  unfold crc32
  intro h
  have hreg : (p ++ b :: s).foldl crcByte 0xFFFFFFFF
      = (p ++ (b ^^^ d) :: s).foldl crcByte 0xFFFFFFFF := by
    have h2 := congrArg (fun x => x ^^^ 0xFFFFFFFF) h
    simpa only [Nat.xor_assoc, Nat.xor_self, Nat.xor_zero] using h2
  have hdiff : (p ++ b :: s).foldl crcByte 0xFFFFFFFF ^^^
      (p ++ (b ^^^ d) :: s).foldl crcByte 0xFFFFFFFF
      = crcBit^[8 * s.length + 8] d := by
    rw [List.foldl_append, List.foldl_append, List.foldl_cons, List.foldl_cons,
        foldl_crcByte_diff, crcByte_diff,
        show b ^^^ (b ^^^ d) = d from by rw [← Nat.xor_assoc, Nat.xor_self, Nat.zero_xor],
        ← Function.iterate_add_apply]
  rw [hreg, Nat.xor_self] at hdiff
  exact hd0 (crcBitN_inj (8 * s.length + 8) hd32 (by norm_num)
    (by rw [← hdiff, crcBitN_zero]))

/-! Agreement lemmas between a buffer and its one-byte modification. -/

theorem getByte_append_lt (p l l' : List Nat) {i : Nat} (h : i < p.length) :
    getByte (p ++ l) i = getByte (p ++ l') i := by
  unfold getByte
  rw [List.getD_append p l 0 i h, List.getD_append p l' 0 i h]

theorem getByte_append_gt (p : List Nat) (b : Nat) (s : List Nat) {i : Nat}
    (h : p.length < i) :
    getByte (p ++ b :: s) i = getByte s (i - p.length - 1) := by
  unfold getByte
  rw [List.getD_append_right p (b :: s) 0 i (by omega)]
  obtain ⟨k, hk⟩ : ∃ k, i - p.length = k + 1 := ⟨i - p.length - 1, by omega⟩
  rw [hk, List.getD_cons_succ]
  simp

theorem readU32BE_append_lt (p l l' : List Nat) {o : Nat} (h : o + 4 ≤ p.length) :
    readU32BE (p ++ l) o = readU32BE (p ++ l') o := by
  unfold readU32BE
  rw [getByte_append_lt p l l' (by omega), getByte_append_lt p l l' (by omega),
      getByte_append_lt p l l' (by omega), getByte_append_lt p l l' (by omega)]

theorem readU32BE_flip_gt (p : List Nat) (b b' : Nat) (s : List Nat) {o : Nat}
    (h : p.length < o) :
    readU32BE (p ++ b :: s) o = readU32BE (p ++ b' :: s) o := by
  unfold readU32BE
  rw [getByte_append_gt p b s (by omega), getByte_append_gt p b s (by omega),
      getByte_append_gt p b s (by omega), getByte_append_gt p b s (by omega),
      getByte_append_gt p b' s (by omega), getByte_append_gt p b' s (by omega),
      getByte_append_gt p b' s (by omega), getByte_append_gt p b' s (by omega)]

theorem take_append_le (p l l' : List Nat) {m : Nat} (h : m ≤ p.length) :
    (p ++ l).take m = (p ++ l').take m := by
  rw [List.take_append_of_le_length h, List.take_append_of_le_length h]

theorem take_append_decomp (p : List Nat) (b : Nat) (s : List Nat) {m : Nat}
    (h : p.length < m) :
    (p ++ b :: s).take m = p ++ b :: s.take (m - p.length - 1) := by
  rw [List.take_append_eq_append_take, List.take_of_length_le (by omega)]
  congr 1
  obtain ⟨k, hk⟩ : ∃ k, m - p.length = k + 1 := ⟨m - p.length - 1, by omega⟩
  rw [hk, List.take_succ_cons]
  simp

theorem parse_frame_headers_error {buffer : List Nat} {e : ParseError}
    (h1 : ¬ buffer.length < PRELUDE_SIZE)
    (h2 : ¬ readU32BE buffer 0 < MIN_MESSAGE_SIZE)
    (h3 : ¬ MAX_MESSAGE_SIZE < readU32BE buffer 0)
    (h4 : ¬ buffer.length < readU32BE buffer 0)
    (h5 : crc32 (buffer.take 8) = readU32BE buffer 8)
    (h6 : crc32 (buffer.take (readU32BE buffer 0 - 4)) =
            readU32BE buffer (readU32BE buffer 0 - 4))
    (h7 : ¬ readU32BE buffer 0 - 4 < PRELUDE_SIZE + readU32BE buffer 4)
    (h8 : parse_headers (listSlice buffer PRELUDE_SIZE (PRELUDE_SIZE + readU32BE buffer 4))
            (readU32BE buffer 4) = .error e) :
    parse_frame buffer = .error e := by
  simp only [parse_frame]
  rw [if_neg h1, if_neg h2, if_neg h3, if_neg h4, if_neg (not_not_intro h5),
      if_neg (not_not_intro h6), if_neg h7, h8]

/-- Inversion: the facts a successful whole-frame parse establishes. -/
theorem parse_frame_ok_some {buffer : List Nat} {fr : Frame} {n : Nat}
    (h : parse_frame buffer = .ok (some (fr, n))) :
    ¬ buffer.length < PRELUDE_SIZE ∧
    n = readU32BE buffer 0 ∧
    ¬ readU32BE buffer 0 < MIN_MESSAGE_SIZE ∧
    ¬ MAX_MESSAGE_SIZE < readU32BE buffer 0 ∧
    ¬ buffer.length < readU32BE buffer 0 ∧
    crc32 (buffer.take 8) = readU32BE buffer 8 ∧
    crc32 (buffer.take (readU32BE buffer 0 - 4)) =
        readU32BE buffer (readU32BE buffer 0 - 4) ∧
    ¬ readU32BE buffer 0 - 4 < PRELUDE_SIZE + readU32BE buffer 4 := by
  by_cases h1 : buffer.length < PRELUDE_SIZE
  · rw [parse_frame_short h1] at h
    simp at h
  by_cases h2 : readU32BE buffer 0 < MIN_MESSAGE_SIZE
  · rw [parse_frame_small h1 h2] at h
    simp at h
  by_cases h3 : MAX_MESSAGE_SIZE < readU32BE buffer 0
  · rw [parse_frame_large h1 h2 h3] at h
    simp at h
  by_cases h4 : buffer.length < readU32BE buffer 0
  · rw [parse_frame_incomplete h1 h2 h3 h4] at h
    simp at h
  by_cases h5 : crc32 (buffer.take 8) = readU32BE buffer 8
  case neg =>
    rw [parse_frame_prelude_mismatch h1 h2 h3 h4 h5] at h
    simp at h
  by_cases h6 : crc32 (buffer.take (readU32BE buffer 0 - 4)) =
      readU32BE buffer (readU32BE buffer 0 - 4)
  case neg =>
    rw [parse_frame_msgcrc_mismatch h1 h2 h3 h4 h5 h6] at h
    simp at h
  by_cases h7 : readU32BE buffer 0 - 4 < PRELUDE_SIZE + readU32BE buffer 4
  · rw [parse_frame_header_bound h1 h2 h3 h4 h5 h6 h7] at h
    simp at h
  refine ⟨h1, ?_, h2, h3, h4, h5, h6, h7⟩
  cases hph : parse_headers (listSlice buffer PRELUDE_SIZE (PRELUDE_SIZE + readU32BE buffer 4))
      (readU32BE buffer 4) with
  | error e =>
      rw [parse_frame_headers_error h1 h2 h3 h4 h5 h6 h7 hph] at h
      simp at h
  | ok hs =>
      rw [parse_frame_success h1 h2 h3 h4 h5 h6 h7 hph] at h
      simp only [Except.ok.injEq, Option.some.injEq, Prod.mk.injEq] at h
      exact h.2.symm

set_option maxRecDepth 400000 in
/-- Claim C3 as stated is false: flipping bit 0 of byte 3 (inside the first
8 bytes) of a well-formed whole frame changes total_length from 16 to 17, and
parse_frame then reports that more bytes are needed (Ok None) instead of
failing with PreludeCrcMismatch. -/
theorem C3_counterexample :
    parse_frame minimalFrame = .ok (some ({ headers := [], payload := [] }, 16)) ∧
      minimalFrame.length = 16 ∧
      minimalFrameFlipped =
        minimalFrame.take 3 ++ (getByte minimalFrame 3 ^^^ 2 ^ 0) :: minimalFrame.drop 4 ∧
      parse_frame minimalFrameFlipped = .ok none := by
  refine ⟨by decide, by decide, by decide, by decide⟩

/-- Claim C3 amended: for a well-formed frame presented whole, flipping any
single bit of a byte in the headers-or-payload region [12, total_length-4)
makes parse_frame fail with MessageCrcMismatch; flipping any single bit in the
first 8 bytes makes parse_frame never succeed: when the length checks still
pass on the modified prelude it fails with PreludeCrcMismatch, and otherwise
it reports MessageTooSmall, MessageTooLarge, or needs more bytes. -/
theorem C3_bit_flip_amended (p s : List Nat) (b j : Nat) (fr : Frame) (n : Nat)
    (hj : j < 8)
    (hsucc : parse_frame (p ++ b :: s) = .ok (some (fr, n)))
    (hwhole : (p ++ b :: s).length = n) :
    (p.length < 8 →
       (∀ r, parse_frame (p ++ (b ^^^ 2 ^ j) :: s) ≠ .ok (some r)) ∧
       (16 ≤ readU32BE (p ++ (b ^^^ 2 ^ j) :: s) 0 →
        readU32BE (p ++ (b ^^^ 2 ^ j) :: s) 0 ≤ 16 * 1024 * 1024 →
        readU32BE (p ++ (b ^^^ 2 ^ j) :: s) 0 ≤ n →
        parse_frame (p ++ (b ^^^ 2 ^ j) :: s) =
          .error (.PreludeCrcMismatch (readU32BE (p ++ (b ^^^ 2 ^ j) :: s) 8)
                                      (crc32 ((p ++ (b ^^^ 2 ^ j) :: s).take 8)))))
  ∧ (12 ≤ p.length → p.length < n - 4 →
       parse_frame (p ++ (b ^^^ 2 ^ j) :: s) =
         .error (.MessageCrcMismatch (readU32BE (p ++ (b ^^^ 2 ^ j) :: s) (n - 4))
                                     (crc32 ((p ++ (b ^^^ 2 ^ j) :: s).take (n - 4))))) := by
  obtain ⟨hx1, hxn, hx2, hx3, hx4, hx5, hx6, hx7⟩ := parse_frame_ok_some hsucc
  have hpsz : PRELUDE_SIZE = 12 := rfl
  have hmin : MIN_MESSAGE_SIZE = 16 := rfl
  have hmax : MAX_MESSAGE_SIZE = 16 * 1024 * 1024 := rfl
  rw [hmin] at hx2
  rw [hmax] at hx3
  rw [← hxn] at hx2 hx3 hx4 hx6 hx7
  have h16n : 16 ≤ n := by omega
  have hylen : (p ++ (b ^^^ 2 ^ j) :: s).length = n := by
    simp only [List.length_append, List.length_cons] at hwhole ⊢
    exact hwhole
  have hd0 : (2 : Nat) ^ j ≠ 0 := pow_ne_zero j (by norm_num)
  have hd32 : (2 : Nat) ^ j < 2 ^ 32 :=
    lt_of_le_of_lt (Nat.pow_le_pow_right (by norm_num) (by omega : j ≤ 7)) (by norm_num)
  constructor
  · intro hp8
    have h8p : 8 - p.length - 1 = 7 - p.length := by omega
    have hx8 : (p ++ b :: s).take 8 = p ++ b :: s.take (7 - p.length) := by
      rw [take_append_decomp p b s (by omega), h8p]
    have hy8 : (p ++ (b ^^^ 2 ^ j) :: s).take 8
        = p ++ (b ^^^ 2 ^ j) :: s.take (7 - p.length) := by
      rw [take_append_decomp p _ s (by omega), h8p]
    have hcrc8ne : crc32 ((p ++ b :: s).take 8) ≠ crc32 ((p ++ (b ^^^ 2 ^ j) :: s).take 8) := by
      rw [hx8, hy8]
      exact crc32_flip_ne p (s.take (7 - p.length)) b (2 ^ j) hd0 hd32
    have hst8 : readU32BE (p ++ b :: s) 8 = readU32BE (p ++ (b ^^^ 2 ^ j) :: s) 8 :=
      readU32BE_flip_gt p b (b ^^^ 2 ^ j) s (by omega)
    have hyne : crc32 ((p ++ (b ^^^ 2 ^ j) :: s).take 8)
        ≠ readU32BE (p ++ (b ^^^ 2 ^ j) :: s) 8 := by
      intro he
      exact hcrc8ne (hx5.trans (hst8.trans he.symm))
    have hy1 : ¬ (p ++ (b ^^^ 2 ^ j) :: s).length < PRELUDE_SIZE := by
      rw [hpsz, hylen]
      omega
    constructor
    · intro r hok
      by_cases hA : readU32BE (p ++ (b ^^^ 2 ^ j) :: s) 0 < MIN_MESSAGE_SIZE
      · rw [parse_frame_small hy1 hA] at hok
        simp at hok
      by_cases hB : MAX_MESSAGE_SIZE < readU32BE (p ++ (b ^^^ 2 ^ j) :: s) 0
      · rw [parse_frame_large hy1 hA hB] at hok
        simp at hok
      by_cases hC : (p ++ (b ^^^ 2 ^ j) :: s).length < readU32BE (p ++ (b ^^^ 2 ^ j) :: s) 0
      · rw [parse_frame_incomplete hy1 hA hB hC] at hok
        simp at hok
      · rw [parse_frame_prelude_mismatch hy1 hA hB hC hyne] at hok
        simp at hok
    · intro ht16 htmax htn
      exact parse_frame_prelude_mismatch hy1 (by rw [hmin]; omega) (by rw [hmax]; omega)
        (by rw [hylen]; omega) hyne
  · intro hp12 hplen
    have ht0 : readU32BE (p ++ b :: s) 0 = readU32BE (p ++ (b ^^^ 2 ^ j) :: s) 0 :=
      readU32BE_append_lt p _ _ (by omega)
    have ht4 : readU32BE (p ++ b :: s) 4 = readU32BE (p ++ (b ^^^ 2 ^ j) :: s) 4 :=
      readU32BE_append_lt p _ _ (by omega)
    have ht8 : readU32BE (p ++ b :: s) 8 = readU32BE (p ++ (b ^^^ 2 ^ j) :: s) 8 :=
      readU32BE_append_lt p _ _ (by omega)
    have htyn : readU32BE (p ++ (b ^^^ 2 ^ j) :: s) 0 = n := by
      rw [← ht0, ← hxn]
    have htm : readU32BE (p ++ b :: s) (n - 4) = readU32BE (p ++ (b ^^^ 2 ^ j) :: s) (n - 4) :=
      readU32BE_flip_gt p b _ s (by omega)
    have htake8 : (p ++ b :: s).take 8 = (p ++ (b ^^^ 2 ^ j) :: s).take 8 :=
      take_append_le p _ _ (by omega)
    have hxdec : (p ++ b :: s).take (n - 4) = p ++ b :: s.take (n - 4 - p.length - 1) :=
      take_append_decomp p b s (by omega)
    have hydec : (p ++ (b ^^^ 2 ^ j) :: s).take (n - 4)
        = p ++ (b ^^^ 2 ^ j) :: s.take (n - 4 - p.length - 1) :=
      take_append_decomp p _ s (by omega)
    have hmne : crc32 ((p ++ (b ^^^ 2 ^ j) :: s).take (n - 4))
        ≠ readU32BE (p ++ (b ^^^ 2 ^ j) :: s) (n - 4) := by
      rw [hydec, ← htm]
      intro he
      have hx6' : crc32 (p ++ b :: s.take (n - 4 - p.length - 1))
          = readU32BE (p ++ b :: s) (n - 4) := by
        rw [← hxdec]
        exact hx6
      exact crc32_flip_ne p (s.take (n - 4 - p.length - 1)) b (2 ^ j) hd0 hd32
        (hx6'.trans he.symm)
    have hy1 : ¬ (p ++ (b ^^^ 2 ^ j) :: s).length < PRELUDE_SIZE := by
      rw [hpsz, hylen]
      omega
    have hy2 : ¬ readU32BE (p ++ (b ^^^ 2 ^ j) :: s) 0 < MIN_MESSAGE_SIZE := by
      rw [hmin, htyn]
      omega
    have hy3 : ¬ MAX_MESSAGE_SIZE < readU32BE (p ++ (b ^^^ 2 ^ j) :: s) 0 := by
      rw [hmax, htyn]
      omega
    have hy4 : ¬ (p ++ (b ^^^ 2 ^ j) :: s).length < readU32BE (p ++ (b ^^^ 2 ^ j) :: s) 0 := by
      rw [hylen, htyn]
      omega
    have hy5 : crc32 ((p ++ (b ^^^ 2 ^ j) :: s).take 8)
        = readU32BE (p ++ (b ^^^ 2 ^ j) :: s) 8 := by
      rw [← htake8, ← ht8]
      exact hx5
    have hfin := parse_frame_msgcrc_mismatch hy1 hy2 hy3 hy4 hy5 (by rw [htyn]; exact hmne)
    rwa [htyn] at hfin

set_option maxRecDepth 1000000 in
/-- Witness for C3_bit_flip_amended: flipping bit 0 of the first payload byte
(offset 20) of a concrete well-formed 26-byte frame yields MessageCrcMismatch. -/
theorem C3_bit_flip_witness :
    parse_frame ([0, 0, 0, 26, 0, 0, 0, 8, 65, 169, 216, 120, 2, 58, 116, 7, 0, 2, 101, 118]
        ++ (104 ^^^ 2 ^ 0) :: [105, 178, 200, 156, 69]) =
      .error (.MessageCrcMismatch
        (readU32BE ([0, 0, 0, 26, 0, 0, 0, 8, 65, 169, 216, 120, 2, 58, 116, 7, 0, 2, 101, 118]
           ++ (104 ^^^ 2 ^ 0) :: [105, 178, 200, 156, 69]) (26 - 4))
        (crc32 (([0, 0, 0, 26, 0, 0, 0, 8, 65, 169, 216, 120, 2, 58, 116, 7, 0, 2, 101, 118]
           ++ (104 ^^^ 2 ^ 0) :: [105, 178, 200, 156, 69]).take (26 - 4)))) :=
  (C3_bit_flip_amended [0, 0, 0, 26, 0, 0, 0, 8, 65, 169, 216, 120, 2, 58, 116, 7, 0, 2, 101, 118]
      [105, 178, 200, 156, 69] 104 0
      { headers := [([58, 116], .string [101, 118])], payload := [104, 105] } 26
      (by decide) (by decide) (by decide)).2 (by decide) (by decide)

end Kiro2api
